import Mathlib

/-!
Verification of the core protocol layer of a Go Selenium/WebDriver client.

The development shallowly embeds the client's protocol and coordination code:

* `executeCommand` — the HTTP command executor of `remote.go` (reply
  inspection, W3C error extraction, content-type check);
* `RemoteConnection.Execute` — the command dispatcher of
  `remote/connection` (endpoint lookup, `$name` path substitution via
  `strings.ReplaceAll`, POST body assembly);
* `WebDriver.*` — the session state machine of `remote/webdriver.go`;
* `remoteWD.StoreKeyActions` / `StorePointerActions` / `PerformActions` —
  the W3C Actions queue of `remote.go`;
* `CDPSession.*` / `Session.Close` — the BiDi/CDP session of `bidi/`;
* `waitPoll` — the polling wait primitive of `remote.go`;
* `remoteWD.DecodeElement` / `WebDriver.FindElement` — element decoding;
* `round` — the element-rect pixel rounder;
* `WebDriver.GetWindowRect` — window-rect decoding.

Go `interface{}` values decoded from JSON are modelled by `GoVal`; machine
floats are modelled by `ℚ` (at every input appearing below the double
rounding of the Go program and the rational computation agree); Go maps are
modelled by association lists (one entry per key); the network is modelled
by explicit oracles for the dispatched request and its reply.
-/

set_option autoImplicit false

namespace Selenium

/-- Model of a Go `interface{}` value as produced by `encoding/json` or
built directly by the client. `encoding/json` never produces `.int`
(numbers decode as `float64`); `.int` values exist only when the program
itself puts a Go `int` into a map. -/
inductive GoVal where
  | null
  | bool (b : Bool)
  | int (n : Int)
  | float (q : ℚ)
  | str (s : String)
  | arr (elems : List GoVal)
  | obj (fields : List (String × GoVal))

/-- Reading `m[key]` from a Go `map[string]interface{}` (modelled as an
association list with at most one entry per key): `none` stands for the
key being absent. -/
def lookupField : List (String × GoVal) → String → Option GoVal
  | [], _ => none
  | (k, v) :: rest, key => if k = key then some v else lookupField rest key

/-- Whether a `GoVal` is a Go `int` (so that an `(int)` type assertion on
it succeeds). -/
def GoVal.isInt : GoVal → Bool
  | .int _ => true
  | _ => false

/-- Joining rendered elements with single spaces, as Go's `fmt` does
inside `[...]` and `map[...]`. -/
def joinSpace : List String → String
  | [] => ""
  | [s] => s
  | s :: rest => s ++ " " ++ joinSpace rest

/-- Lexicographic (codepoint, equivalently UTF-8 byte) order on key
character lists — the order in which Go's `fmt` prints map keys. -/
def keyLtb : List Char → List Char → Bool
  | [], [] => false
  | [], _ :: _ => true
  | _ :: _, [] => false
  | c :: cs, d :: ds => if c < d then true else if d < c then false else keyLtb cs ds

/-- Insertion step of the key sort applied to rendered map entries. -/
def insertEntry (e : String × String) : List (String × String) → List (String × String)
  | [] => [e]
  | x :: xs => if keyLtb e.1.toList x.1.toList then e :: x :: xs else x :: insertEntry e xs

/-- Sorting rendered map entries by key, mirroring `fmt`'s sorted map
printing. -/
def sortEntries : List (String × String) → List (String × String)
  | [] => []
  | x :: xs => insertEntry x (sortEntries xs)

mutual
/-- Go `fmt.Sprint` of a parameter value, as used for `$name` path
substitution. Scalars mirror Go's `%v`: `<nil>`, `true`/`false`, decimal
integers, strings verbatim. Containers render recursively like `%v`:
slices as `[e1 e2 ...]` and maps as `map[k1:v1 k2:v2]` with keys in
sorted order — so a `'$'` inside a nested value surfaces in the rendered
string, e.g. `goSprint (obj [("k", str "$box")]) = "map[k:$box]"`.
The only approximation is the number layout: `float64` values are
modelled by `ℚ` and rendered by its `toString` instead of Go's `%g`;
both renderings consist of digits, signs, `.`, `/` and `e` only, so no
`'$'`-freeness hypothesis below is affected. -/
def goSprint : GoVal → String
  | .null => "<nil>"
  | .bool b => toString b
  | .int n => toString n
  | .float q => toString q
  | .str s => s
  | .arr elems => "[" ++ joinSpace (goSprintVals elems) ++ "]"
  | .obj fields =>
      "map[" ++
        joinSpace ((sortEntries (goSprintEntries fields)).map fun kv => kv.1 ++ ":" ++ kv.2)
        ++ "]"

/-- Renderings of the elements of a slice, in order. -/
def goSprintVals : List GoVal → List String
  | [] => []
  | v :: rest => goSprint v :: goSprintVals rest

/-- Renderings of the entries of a map, keyed, before sorting. -/
def goSprintEntries : List (String × GoVal) → List (String × String)
  | [] => []
  | (k, v) :: rest => (k, goSprint v) :: goSprintEntries rest
end

/-! ### The element-rect pixel rounder (`round`, `remote.go`) -/

/-- Go's `int(f)` conversion: truncation toward zero. -/
def goTrunc (q : ℚ) : Int := if q < 0 then -⌊-q⌋ else ⌊q⌋

/-- `round` from `remote.go`:
`if f < 0 { return int(f - 0.5) }; return int(f + 0.5)`. -/
def round (f : ℚ) : Int := if f < 0 then goTrunc (f - 1/2) else goTrunc (f + 1/2)

/-! ### `WebDriver.GetWindowRect` (`remote/webdriver.go`) -/

/-- Go's `v, _ = m[key].(int)`: the comma-ok `(int)` type assertion,
yielding the zero value `0` whenever the entry is absent or is not a Go
`int` (in particular for every JSON-decoded `float64`). -/
def assertGoInt (m : List (String × GoVal)) (key : String) : Int :=
  match lookupField m key with
  | some (.int n) => n
  | _ => 0

/-- `WebDriver.GetWindowRect` of `remote/webdriver.go`, applied to the
already-decoded reply map of a successful `Execute`: requires
`response["value"]` to be an object and extracts each coordinate with a
silent `(int)` type assertion. -/
def WebDriver.GetWindowRect (response : List (String × GoVal)) :
    Except String (Int × Int × Int × Int) :=
  match lookupField response "value" with
  | some (.obj rect) =>
      .ok (assertGoInt rect "x", assertGoInt rect "y",
           assertGoInt rect "width", assertGoInt rect "height")
  | _ => .error "failed to get window rect: invalid response format"

/-- No field of the map is a Go `int` — true of every map produced by
`encoding/json`, whose numbers decode as `float64`. -/
def noGoIntFields (m : List (String × GoVal)) : Bool :=
  m.all fun p => !(p.2.isInt)

/-! ### The HTTP command executor (`executeCommand`, `remote.go`) -/

/-- The W3C `Error` struct of `remote.go`: kind string, message,
stacktrace and the originating HTTP status code. -/
structure WDError where
  err : String
  message : String
  stacktrace : String
  httpCode : Nat
  deriving DecidableEq

/-- The decoded `serverReply` of `remote.go`: an optional top-level
session id, the raw `value` (absent when the field is missing), and the
embedded top-level error fields (empty strings when absent, matching Go's
zero values). -/
structure ServerReply where
  sessionID : Option String
  value : Option GoVal
  err : String
  message : String
  stacktrace : String

/-- Failure modes of `executeCommand`. -/
inductive ExecError where
  /-- Content-Type of the response did not parse as `application/json`. -/
  | badContentType
  /-- Body did not unmarshal and the HTTP status was not 200. -/
  | badReplyStatus (status : Nat)
  /-- Body did not unmarshal under HTTP 200. -/
  | unmarshalFailed
  /-- A W3C WebDriver error. -/
  | wd (e : WDError)

/-- Go `json.Unmarshal` of a JSON value into a `string` struct field:
absent and `null` leave the zero value `""`; a string is taken verbatim;
any other shape fails the whole unmarshal. -/
def getStringField (m : List (String × GoVal)) (key : String) : Option String :=
  match lookupField m key with
  | none => some ""
  | some .null => some ""
  | some (.str s) => some s
  | some _ => none

/-- Go `json.Unmarshal(reply.Value, possibleErr)` where `possibleErr` is
an `Error` struct: succeeds on `null` (leaving zero values) and on objects
whose `error`/`message`/`stacktrace` entries, when present, are strings;
fails (`none`) otherwise. -/
def decodeValueError : GoVal → Option (String × String × String)
  | .null => some ("", "", "")
  | .obj m =>
      match getStringField m "error", getStringField m "message",
            getStringField m "stacktrace" with
      | some e, some msg, some st => some (e, msg, st)
      | _, _, _ => none
  | _ => none

/-- `executeCommand` of `remote.go`, from the point where the response
body has been read: `status` is the HTTP status code, `contentTypeJSON`
whether the parsed media type equals `application/json`, and `body` the
result of unmarshalling the body into `serverReply` (`none` on parse
failure). Mirrors the source: content-type check; on parse failure a
status error unless the status is exactly 200; a top-level nonempty
`error` field is an error; a `value` that decodes as an `Error` with a
nonempty `error` string is an error; otherwise the reply is returned. -/
def executeCommand (status : Nat) (contentTypeJSON : Bool)
    (body : Option ServerReply) : Except ExecError ServerReply :=
  if !contentTypeJSON then .error .badContentType
  else
    match body with
    | none => if status ≠ 200 then .error (.badReplyStatus status) else .error .unmarshalFailed
    | some reply =>
        if reply.err ≠ "" then
          .error (.wd ⟨reply.err, reply.message, reply.stacktrace, status⟩)
        else
          match reply.value with
          | some v =>
              match decodeValueError v with
              | some (e, msg, st) =>
                  if e ≠ "" then .error (.wd ⟨e, msg, st, status⟩) else .ok reply
              | none => .ok reply
          | none => .ok reply

/-- Whether an `executeCommand` result is an error. -/
def execIsError : Except ExecError ServerReply → Bool
  | .error _ => true
  | .ok _ => false

/-- The claim's status test: HTTP status inside `[200, 300)`. -/
def status2xx (status : Nat) : Bool := decide (200 ≤ status) && decide (status < 300)

/-- The claim's reply test: the reply `value` is an object carrying both
an `error` string field and a `message` string field. -/
def valueHasErrorAndMessage (value : Option GoVal) : Bool :=
  match value with
  | some (.obj m) =>
      (match lookupField m "error" with | some (.str _) => true | _ => false) &&
      (match lookupField m "message" with | some (.str _) => true | _ => false)
  | _ => false

/-- Whether the top-level reply or its `value` carries a nonempty W3C
`error` string — the condition under which `executeCommand` actually
errors on a parseable reply. -/
def replyIsError (reply : ServerReply) : Bool :=
  (reply.err != "") ||
  (match reply.value with
   | some v =>
       match decodeValueError v with
       | some (e, _, _) => e != ""
       | none => false
   | none => false)

/-! ### The command dispatcher (`RemoteConnection.Execute`) -/

/-- Fuel-indexed core of Go `strings.ReplaceAll` for the nonempty pattern
`p :: k`: scans left to right, replacing each non-overlapping occurrence
of the pattern by `v`. With `fuel ≥ s.length` this computes
`strings.ReplaceAll(s, p::k, v)`. -/
def replaceFuel (p : Char) (k v : List Char) : Nat → List Char → List Char
  | _, [] => []
  | 0, s => s
  | fuel + 1, c :: cs =>
      if (p :: k).isPrefixOf (c :: cs) then
        v ++ replaceFuel p k v fuel (cs.drop k.length)
      else
        c :: replaceFuel p k v fuel cs

/-- Go `strings.ReplaceAll(s, pat, v)` for a nonempty pattern (every call
site below uses the pattern `"$" + key`, which is nonempty). -/
def replaceAll (pat v s : List Char) : List Char :=
  match pat with
  | [] => s
  | p :: k => replaceFuel p k v s.length s

/-- One endpoint-table entry: HTTP method and `$name` path template. -/
structure Endpoint where
  method : String
  path : List Char

/-- `RemoteConnection.GetEndpoint`: lookup in the command map. -/
def getEndpoint : List (String × Endpoint) → String → Option Endpoint
  | [], _ => none
  | (c, ep) :: rest, cmd => if c = cmd then some ep else getEndpoint rest cmd

/-- The path-substitution loop of `RemoteConnection.Execute`:
`for k, v := range params { path = strings.ReplaceAll(path, "$"+k, fmt.Sprint(v)) }`.
The association list fixes one iteration order of the Go map. -/
def substPath (path : List Char) (params : List (String × GoVal)) : List Char :=
  params.foldl (fun acc kv => replaceAll ('$' :: kv.1.toList) (goSprint kv.2).toList acc) path

/-- The request built by `RemoteConnection.Execute` before it is handed to
the HTTP client. -/
structure DispatchedRequest where
  method : String
  uri : List Char
  body : Option (List (String × GoVal))

/-- `RemoteConnection.Execute` of `remote/connection`, up to the point the
request is issued: resolves the endpoint, substitutes `$name` path
variables with `fmt.Sprint` of each parameter, and for POST serialises the
entire (unmodified) parameter map as the body. -/
def RemoteConnection.Execute (table : List (String × Endpoint))
    (serverAddr : List Char) (cmd : String) (params : List (String × GoVal)) :
    Except String DispatchedRequest :=
  match getEndpoint table cmd with
  | none => .error "unknown command"
  | some ep =>
      .ok { method := ep.method
            uri := serverAddr ++ substPath ep.path params
            body := if ep.method = "POST" then some params else none }

/-- The name of the `$name` token starting right after a `'$'`: the
maximal alphanumeric run. -/
def tokenOf (b : List Char) : List Char := b.takeWhile Char.isAlphanum

/-- The parameter keys, as character lists. -/
def keysOf (params : List (String × GoVal)) : List (List Char) :=
  params.map fun kv => kv.1.toList

/-- Every `$name` token of the path template has a parameter: at each
occurrence of `'$'` in the template, the maximal alphanumeric run that
follows it is one of the parameter keys. -/
def pathCovered (path : List Char) (params : List (String × GoVal)) : Prop :=
  ∀ a b, path = a ++ '$' :: b → tokenOf b ∈ keysOf params

/-- Executable scan deciding `pathCovered` on concrete templates. -/
def coverageScan : List Char → List (List Char) → Bool
  | [], _ => true
  | c :: cs, keys =>
      (if c = '$' then keys.any fun k => k == tokenOf cs else true) && coverageScan cs keys

/-! ### The session state machine (`remote/webdriver.go`) -/

/-- The reply oracle standing for `conn.Execute`: maps a command and its
parameters to the decoded reply map or a transport/protocol error. -/
def ConnOracle : Type :=
  String → List (String × GoVal) → Except String (List (String × GoVal))

/-- Failure modes of the session-managing `WebDriver`. -/
inductive DriverError where
  | noActiveSession
  | sessionExists
  | conn (msg : String)
  deriving DecidableEq

/-- The session-holding state of `remote/webdriver.go`'s `WebDriver`
(capabilities are irrelevant to the claims and omitted). An empty
`sessionID` is the unbound state. -/
structure WebDriver where
  sessionID : String
  deriving DecidableEq

/-- `WebDriver.Execute`: refuses to dispatch while no session is bound,
otherwise forwards to the connection. -/
def WebDriver.Execute (d : WebDriver) (c : ConnOracle) (cmd : String)
    (params : List (String × GoVal)) : Except DriverError (List (String × GoVal)) :=
  if d.sessionID = "" then .error .noActiveSession
  else
    match c cmd params with
    | .ok r => .ok r
    | .error e => .error (.conn e)

/-- `WebDriver.NewSession`: refuses when a session already exists;
otherwise binds the session id produced by `newSession` (abstracted as
`sessionResult`), leaving the state unchanged on failure. -/
def WebDriver.NewSession (d : WebDriver) (sessionResult : Except String String) :
    WebDriver × Except DriverError Unit :=
  if d.sessionID ≠ "" then (d, .error .sessionExists)
  else
    match sessionResult with
    | .ok sid => ({ sessionID := sid }, .ok ())
    | .error e => (d, .error (.conn e))

/-- `WebDriver.DeleteSession`: returns `nil` without dispatching when no
session exists; otherwise dispatches `deleteSession` through `Execute`.
The stored session id is not modified on any path. -/
def WebDriver.DeleteSession (d : WebDriver) (c : ConnOracle) :
    WebDriver × Except DriverError Unit :=
  if d.sessionID = "" then (d, .ok ())
  else (d, (d.Execute c "deleteSession" [("sessionId", .str d.sessionID)]).map fun _ => ())

/-- `WebDriver.Quit`: no-op when unbound; otherwise delete the session and
clear the stored id only when the delete succeeded. -/
def WebDriver.Quit (d : WebDriver) (c : ConnOracle) :
    WebDriver × Except DriverError Unit :=
  if d.sessionID = "" then (d, .ok ())
  else
    match (d.DeleteSession c).2 with
    | .ok _ => ({ sessionID := "" }, .ok ())
    | .error e => (d, .error e)

/-! ### The W3C Actions queue (`remote.go`) -/

/-- One queued action: a `map[string]interface{}` such as
`{"type": "keyDown", "value": "A"}`. -/
def ActionMap : Type := List (String × GoVal)

/-- One record of `remoteWD.storedActions`: the device map appended by
`StoreKeyActions` / `StorePointerActions` (`parameters` carries the
pointer type and exists only on pointer records). -/
structure DeviceRecord where
  type : String
  id : String
  parameters : Option String
  actions : List ActionMap

/-- `KeyDownAction` of `remote.go`. -/
def KeyDownAction (k : String) : ActionMap := [("type", .str "keyDown"), ("value", .str k)]

/-- `KeyUpAction` of `remote.go`. -/
def KeyUpAction (k : String) : ActionMap := [("type", .str "keyUp"), ("value", .str k)]

/-- `PointerDownAction` of `remote.go` (`button` is a Go int). -/
def PointerDownAction (button : Int) : ActionMap :=
  [("type", .str "pointerDown"), ("button", .int button)]

/-- `PointerUpAction` of `remote.go`. -/
def PointerUpAction (button : Int) : ActionMap :=
  [("type", .str "pointerUp"), ("button", .int button)]

/-- `remoteWD.StoreKeyActions`: appends one `key` device record holding
the given actions verbatim. -/
def remoteWD.StoreKeyActions (stored : List DeviceRecord) (inputID : String)
    (actions : List ActionMap) : List DeviceRecord :=
  stored ++ [{ type := "key", id := inputID, parameters := none, actions := actions }]

/-- `remoteWD.StorePointerActions`: appends one `pointer` device record
with its `parameters.pointerType`. -/
def remoteWD.StorePointerActions (stored : List DeviceRecord) (inputID : String)
    (pointer : String) (actions : List ActionMap) : List DeviceRecord :=
  stored ++ [{ type := "pointer", id := inputID, parameters := some pointer, actions := actions }]

/-- The `/actions` POST body: `{"actions": storedActions}`. -/
structure ActionsPayload where
  actions : List DeviceRecord

/-- `remoteWD.PerformActions`: dispatches the composed payload and then
unconditionally sets `storedActions = nil`, returning the dispatch
outcome. The network is the `dispatch` oracle, so the same definition
covers success, an error reply, and a send whose reply was lost. -/
def remoteWD.PerformActions (stored : List DeviceRecord)
    (dispatch : ActionsPayload → Except String Unit) :
    List DeviceRecord × Except String Unit :=
  ([], dispatch { actions := stored })

/-- One `Store{Key,Pointer}Actions` call, for reasoning about arbitrary
call sequences. -/
inductive StoreCall where
  | key (inputID : String) (actions : List ActionMap)
  | pointer (inputID : String) (pointerType : String) (actions : List ActionMap)

/-- The device record a single store call appends. -/
def recordOfCall : StoreCall → DeviceRecord
  | .key i as => { type := "key", id := i, parameters := none, actions := as }
  | .pointer i pt as => { type := "pointer", id := i, parameters := some pt, actions := as }

/-- Replaying a sequence of store calls against the queue. -/
def applyStoreCalls (stored : List DeviceRecord) : List StoreCall → List DeviceRecord
  | [] => stored
  | .key i as :: rest => applyStoreCalls (remoteWD.StoreKeyActions stored i as) rest
  | .pointer i pt as :: rest =>
      applyStoreCalls (remoteWD.StorePointerActions stored i pt as) rest

/-! ### The BiDi/CDP session (`bidi/session.go`) -/

/-- The observable state of one capacity-1 reply channel. -/
inductive ChanState where
  | waiting
  | delivered (msg : String)
  | closedCh
  deriving DecidableEq

/-- Errors surfaced by the CDP session. -/
inductive BidiError where
  | sessionClosed
  | ctxCancelled
  deriving DecidableEq

/-- The state of `CDPSessionImpl`: closed flag, id counter, the inflight
id set, the reply channels (kept separately because waiters hold channel
references that survive `inflight = nil`), and the WebSocket. -/
structure CDPState where
  closed : Bool
  nextID : Int
  inflight : List Int
  chans : List (Int × ChanState)
  wsClosed : Bool

/-- Association lookup among the reply channels. -/
def lookupChan : List (Int × ChanState) → Int → Option ChanState
  | [], _ => none
  | (k, st) :: rest, id => if k = id then some st else lookupChan rest id

/-- Channel of a given request id. -/
def chanOf (s : CDPState) (id : Int) : Option ChanState :=
  lookupChan s.chans id

/-- The entry of `CDPSessionImpl.Execute`: fail fast with
`ErrSessionClosed` when closed, otherwise take a fresh id and register a
waiting reply channel. -/
def CDPSession.ExecuteBegin (s : CDPState) : Except BidiError (CDPState × Int) :=
  if s.closed then .error .sessionClosed
  else
    let id := s.nextID + 1
    .ok ({ s with nextID := id
                  inflight := s.inflight ++ [id]
                  chans := s.chans ++ [(id, .waiting)] }, id)

/-- The `select` of `CDPSessionImpl.Execute`: a delivered message returns
`(result, nil)`; a receive on a closed channel yields the zero value, so
the code returns `(nil, nil)` — payload `none` with no error; an
unresolved channel blocks unless the context is done. -/
inductive AwaitOutcome where
  | blocked
  | finished (result : Except BidiError (Option String))

/-- Outcome of the waiter's `select` as a function of its channel state. -/
def CDPSession.ExecuteAwait (c : ChanState) (ctxDone : Bool) : AwaitOutcome :=
  match c with
  | .delivered m => .finished (.ok (some m))
  | .closedCh => .finished (.ok none)
  | .waiting => if ctxDone then .finished (.error .ctxCancelled) else .blocked

/-- `CDPSessionImpl.Close`: no-op when already closed; otherwise set the
closed flag, close every inflight reply channel, drop the inflight map and
close the WebSocket. -/
def CDPSession.Close (s : CDPState) : CDPState :=
  if s.closed then s
  else
    { s with closed := true
             chans := s.chans.map fun p => if p.1 ∈ s.inflight then (p.1, .closedCh) else p
             inflight := []
             wsClosed := true }

/-- The state of `bidi.Session`: the CDP session plus the event-handler
table (modelled by its registered topics) and its own closed flag. -/
structure BidiSession where
  cdp : CDPState
  handlers : List String
  closed : Bool

/-- `Session.Close` of `bidi/session.go`: set closed, clear the handler
table, close the CDP session. -/
def Session.Close (bs : BidiSession) : BidiSession :=
  if bs.closed then bs
  else { cdp := CDPSession.Close bs.cdp, handlers := [], closed := true }

/-! ### The polling wait primitive (`remote.go`) -/

/-- Outcome of one condition evaluation: `(ok, err)` with `err = nil`, or
an error. -/
inductive CondOutcome where
  | ok (b : Bool)
  | failed (msg : String)

/-- Errors returned by the wait loop. -/
inductive WaitError where
  | timeoutAfter (elapsed : Nat) (timeout : Nat)
  | condErr (msg : String)
  deriving DecidableEq

/-- `remoteWD.WaitWithTimeoutAndInterval`, over the trace the loop
observes: each entry is one condition result together with the value of
`time.Since(startTime)` (in nanoseconds) read right after it. The source
checks the condition first and only then `time.Since(startTime) > timeout`
(a strict comparison); otherwise it sleeps the interval and repeats.
`none` means the loop is still polling when the trace runs out. -/
def waitPoll (timeout : Nat) : List (CondOutcome × Nat) → Option (Except WaitError Unit)
  | [] => none
  | (r, elapsed) :: rest =>
      match r with
      | .failed m => some (.error (.condErr m))
      | .ok true => some (.ok ())
      | .ok false =>
          if timeout < elapsed then some (.error (.timeoutAfter elapsed timeout))
          else waitPoll timeout rest

/-- `DefaultWaitInterval = 100 * time.Millisecond`, in nanoseconds. -/
def DefaultWaitInterval : Nat := 100 * 1000000

/-- `DefaultWaitTimeout = 60 * time.Second`, in nanoseconds. -/
def DefaultWaitTimeout : Nat := 60 * 1000000000

/-- `remoteWD.Wait`: the loop with the default timeout (the default
interval governs only the sleeps between trace entries). -/
def Wait (trace : List (CondOutcome × Nat)) : Option (Except WaitError Unit) :=
  waitPoll DefaultWaitTimeout trace

/-! ### Element decoding (`remote.go` and `remote/webdriver.go`) -/

/-- The W3C element-identifier key (`remote.go`). -/
def webElementIdentifier : String := "element-6066-11e4-a52e-4f735466cecf"

/-- Reading from a Go `map[string]string`: absent keys give `""`. -/
def lookupStr : List (String × String) → String → Option String
  | [], _ => none
  | (k, v) :: rest, key => if k = key then some v else lookupStr rest key

/-- An element handle of the legacy track. -/
structure RemoteWE where
  id : String
  deriving DecidableEq

/-- `remoteWD.DecodeElement`: reads the element id from the decoded reply
value (a `map[string]string`) under the fixed W3C key; an absent key reads
as the zero value `""`, which is rejected. -/
def remoteWD.DecodeElement (value : List (String × String)) : Except String RemoteWE :=
  let id := (lookupStr value webElementIdentifier).getD ""
  if id = "" then .error "invalid element returned" else .ok ⟨id⟩

/-- `WebDriver.FindElement` of `remote/webdriver.go`, applied to the
decoded reply of a successful `Execute`: requires `response["value"]` to
be an object and reads the id under the legacy key `"ELEMENT"`. -/
def WebDriver.FindElement (response : List (String × GoVal)) : Except String RemoteWE :=
  match lookupField response "value" with
  | some (.obj element) =>
      match lookupField element "ELEMENT" with
      | some (.str elementID) => .ok ⟨elementID⟩
      | _ => .error "failed to find element"
  | _ => .error "failed to find element"

/-!
## Theorems

Helper lemmas first, then one theorem per claim (with its witness or
counterexample where required).
-/

/-- A `lookupField` hit returns one of the map's entries. -/
theorem lookupField_mem {m : List (String × GoVal)} {key : String} {v : GoVal}
    (h : lookupField m key = some v) : ∃ k, (k, v) ∈ m := by
  induction m with
  | nil => simp [lookupField] at h
  | cons p rest ih =>
      obtain ⟨k0, v0⟩ := p
      by_cases hk : k0 = key
      · refine ⟨k0, ?_⟩
        simp [lookupField, hk] at h
        simp [h]
      · simp only [lookupField, hk, if_neg, ite_false] at h
        obtain ⟨k, hmem⟩ := ih h
        exact ⟨k, List.mem_cons_of_mem _ hmem⟩

/-- Under `noGoIntFields`, every silent `(int)` assertion yields `0`. -/
theorem assertGoInt_eq_zero {m : List (String × GoVal)} (key : String)
    (h : noGoIntFields m = true) : assertGoInt m key = 0 := by
  unfold assertGoInt
  cases hv : lookupField m key with
  | none => rfl
  | some v =>
      obtain ⟨k, hmem⟩ := lookupField_mem hv
      have hni : v.isInt = false := by
        have := (List.all_eq_true.mp h) (k, v) hmem
        simpa using this
      cases v <;> simp_all [GoVal.isInt]

/-- Claim C10: for every successful `getWindowRect` reply decoded from
JSON (so that its numeric fields are `float64` values, never Go `int`s),
`GetWindowRect` returns `x = y = width = height = 0` with a nil error,
because each coordinate is read through a silently failing `(int)` type
assertion. -/
theorem claim_C10_getWindowRect_zero (response rect : List (String × GoVal))
    (hval : lookupField response "value" = some (.obj rect))
    (hjson : noGoIntFields rect = true) :
    WebDriver.GetWindowRect response = .ok (0, 0, 0, 0) := by
  unfold WebDriver.GetWindowRect
  rw [hval]
  simp [assertGoInt_eq_zero _ hjson]

/-- Witness for C10: a concrete reply whose rect fields are JSON floats. -/
theorem claim_C10_witness :
    WebDriver.GetWindowRect
      [("value", GoVal.obj [("x", GoVal.float 10), ("y", GoVal.float 20),
                            ("width", GoVal.float 1280), ("height", GoVal.float 800)])]
      = .ok (0, 0, 0, 0) :=
  claim_C10_getWindowRect_zero _ _ rfl rfl

/-- Claim C9: the element-rect pixel rounder rounds half away from zero:
`round 0.4 = 0`, `round 0.5 = 1`, `round (-0.4) = 0`, `round (-0.6) = -1`. -/
theorem claim_C9_round_half_away_from_zero :
    round (2/5 : ℚ) = 0 ∧ round (1/2 : ℚ) = 1 ∧
    round (-(2/5) : ℚ) = 0 ∧ round (-(3/5) : ℚ) = -1 := by
  refine ⟨?_, ?_, ?_, ?_⟩ <;> norm_num [round, goTrunc]

/-- Claim C4: `PerformActions` clears the stored action queue on every
outcome of the dispatch — success, error reply, or a send whose reply was
lost — while returning the dispatch outcome for the payload composed from
the queue. In particular the queue is never left intact, so it is left
intact only if dispatch failed before the payload was sent (vacuously). -/
theorem claim_C4_performActions_clears :
    ∀ (stored : List DeviceRecord) (dispatch : ActionsPayload → Except String Unit),
      (remoteWD.PerformActions stored dispatch).1 = [] ∧
      (remoteWD.PerformActions stored dispatch).2 = dispatch { actions := stored } :=
  fun _ _ => ⟨rfl, rfl⟩

/-- Replaying store calls appends exactly one record per call, in call
order. -/
theorem applyStoreCalls_eq (calls : List StoreCall) :
    ∀ stored, applyStoreCalls stored calls = stored ++ calls.map recordOfCall := by
  induction calls with
  | nil => intro stored; simp [applyStoreCalls]
  | cons c rest ih =>
      intro stored
      cases c with
      | key i as =>
          simp [applyStoreCalls, remoteWD.StoreKeyActions, ih, recordOfCall]
      | pointer i pt as =>
          simp [applyStoreCalls, remoteWD.StorePointerActions, ih, recordOfCall]

/-- Counterexample to claim C8's omission clause: a device stored with an
empty action list still appears in the composed payload — `StoreKeyActions`
appends its record unconditionally and `PerformActions` sends the stored
records as they are. -/
theorem claim_C8_counterexample :
    applyStoreCalls [] [StoreCall.key "kb" []] =
      [{ type := "key", id := "kb", parameters := none, actions := [] }] ∧
    ({ type := "key", id := "kb", parameters := none, actions := [] } : DeviceRecord).actions
      = [] :=
  ⟨rfl, rfl⟩

/-- Claim C8 (amended): for any sequence of `StoreKeyActions` /
`StorePointerActions` calls, the composed `/actions` payload lists one
device record per store call in call order, each of shape
`{type, id, actions}` with pointer records additionally carrying
`parameters.pointerType`, and within a device the action order is
preserved; devices whose action list is empty are included, not omitted
(the separate `ActionBuilder.Perform` pathway is the one that omits
them). -/
theorem claim_C8_payload_order :
    ∀ (calls : List StoreCall) (dispatch : ActionsPayload → Except String Unit),
      applyStoreCalls [] calls = calls.map recordOfCall ∧
      (applyStoreCalls [] calls).length = calls.length ∧
      (remoteWD.PerformActions (applyStoreCalls [] calls) dispatch).2 =
        dispatch { actions := calls.map recordOfCall } := by
  intro calls dispatch
  have h := applyStoreCalls_eq calls []
  simp only [List.nil_append] at h
  exact ⟨h, by simp [h], by simp [remoteWD.PerformActions, h]⟩

/-- Counterexample to claim C6's timeout boundary: with the elapsed time
exactly equal to the timeout and the condition false, the loop does not
return a timeout error (the source compares with a strict
`time.Since(startTime) > timeout`) — it sleeps and polls again. -/
theorem claim_C6_counterexample :
    waitPoll 5 [(CondOutcome.ok false, 5)] = none ∧
    (none : Option (Except WaitError Unit)) ≠
      some (.error (.timeoutAfter 5 5)) := by
  exact ⟨rfl, by simp⟩

/-- Claim C6 (amended): the wait primitive invokes the condition first on
every iteration (in particular immediately); `(true, nil)` returns
success at once, an error propagates at once, and otherwise the loop
returns a timeout error exactly when the elapsed time is strictly greater
than the timeout, else it sleeps the interval and repeats; the defaults
are 60 s and 100 ms. -/
theorem claim_C6_wait_semantics :
    (∀ (t e : Nat) (rest : List (CondOutcome × Nat)),
        waitPoll t ((CondOutcome.ok true, e) :: rest) = some (.ok ())) ∧
    (∀ (t e : Nat) (m : String) (rest : List (CondOutcome × Nat)),
        waitPoll t ((CondOutcome.failed m, e) :: rest) = some (.error (.condErr m))) ∧
    (∀ (t e : Nat) (rest : List (CondOutcome × Nat)), t < e →
        waitPoll t ((CondOutcome.ok false, e) :: rest) =
          some (.error (.timeoutAfter e t))) ∧
    (∀ (t e : Nat) (rest : List (CondOutcome × Nat)), e ≤ t →
        waitPoll t ((CondOutcome.ok false, e) :: rest) = waitPoll t rest) ∧
    DefaultWaitTimeout = 60000000000 ∧ DefaultWaitInterval = 100000000 ∧
    (∀ trace, Wait trace = waitPoll 60000000000 trace) := by
  refine ⟨fun t e rest => rfl, fun t e m rest => rfl, ?_, ?_, rfl, rfl, fun _ => rfl⟩
  · intro t e rest h
    simp [waitPoll, h]
  · intro t e rest h
    simp [waitPoll, Nat.not_lt.mpr h]

/-- Witness for C6: a first poll past the deadline times out; a poll at
the deadline continues and succeeds on the next iteration. -/
theorem claim_C6_witness :
    waitPoll 5 [(CondOutcome.ok false, 6)] = some (.error (.timeoutAfter 6 5)) ∧
    waitPoll 5 [(CondOutcome.ok false, 4), (CondOutcome.ok true, 6)] = some (.ok ()) := by
  constructor
  · exact claim_C6_wait_semantics.2.2.1 5 6 [] (by decide)
  · rw [claim_C6_wait_semantics.2.2.2.1 5 4 _ (by decide)]
    exact claim_C6_wait_semantics.1 5 6 []

/-- Counterexample to claim C7: the context-bearing
`WebDriver.FindElement` of `remote/webdriver.go` does not extract the id
under the W3C key — given the W3C-shaped reply
`{"value": {"element-6066-11e4-a52e-4f735466cecf": "E"}}` it returns an
error instead of a handle with id `"E"`, because it looks up the legacy
key `"ELEMENT"`. -/
theorem claim_C7_counterexample :
    WebDriver.FindElement [("value", GoVal.obj [(webElementIdentifier, GoVal.str "E")])]
      = .error "failed to find element" ∧
    WebDriver.FindElement [("value", GoVal.obj [(webElementIdentifier, GoVal.str "E")])]
      ≠ .ok ⟨"E"⟩ := by
  constructor
  · rfl
  · intro h
    rw [show WebDriver.FindElement
          [("value", GoVal.obj [(webElementIdentifier, GoVal.str "E")])]
          = .error "failed to find element" from rfl] at h
    exact Except.noConfusion h

/-- Claim C7 (amended): the legacy-track `remoteWD.DecodeElement` extracts
the element id from the reply value under the fixed W3C key and yields a
handle with that id whenever it is nonempty; the context-bearing
`WebDriver.FindElement` instead extracts the id under the legacy key
`"ELEMENT"` and returns an error whenever the value object has no
`"ELEMENT"` string entry — in particular on W3C-shaped replies. -/
theorem claim_C7_element_decoding :
    (∀ (value : List (String × String)) (id : String),
        lookupStr value webElementIdentifier = some id → id ≠ "" →
        remoteWD.DecodeElement value = .ok ⟨id⟩) ∧
    (∀ (response element : List (String × GoVal)) (id : String),
        lookupField response "value" = some (.obj element) →
        lookupField element "ELEMENT" = some (.str id) →
        WebDriver.FindElement response = .ok ⟨id⟩) ∧
    (∀ (response element : List (String × GoVal)),
        lookupField response "value" = some (.obj element) →
        lookupField element "ELEMENT" = none →
        WebDriver.FindElement response = .error "failed to find element") := by
  refine ⟨?_, ?_, ?_⟩
  · intro value id hlook hne
    unfold remoteWD.DecodeElement
    rw [hlook]
    simp [hne]
  · intro response element id hval helem
    simp only [WebDriver.FindElement, hval, helem]
  · intro response element hval helem
    simp only [WebDriver.FindElement, hval, helem]

/-- Witness for C7: both decoders applied to concrete replies. -/
theorem claim_C7_witness :
    remoteWD.DecodeElement [(webElementIdentifier, "E")] = .ok ⟨"E"⟩ ∧
    WebDriver.FindElement [("value", GoVal.obj [("ELEMENT", GoVal.str "E")])] = .ok ⟨"E"⟩ := by
  constructor
  · exact claim_C7_element_decoding.1 _ "E" rfl (by decide)
  · exact claim_C7_element_decoding.2.1 _ _ "E" rfl rfl

/-- Counterexample to claim C3's clearing clause: a successful
`DeleteSession` on a bound driver leaves the stored session id in place —
the source only returns the dispatch outcome and never resets
`d.sessionID` (only `Quit` does). -/
theorem claim_C3_counterexample :
    (WebDriver.DeleteSession ⟨"S"⟩ (fun _ _ => .ok [])).2 = .ok () ∧
    (WebDriver.DeleteSession ⟨"S"⟩ (fun _ _ => .ok [])).1.sessionID = "S" ∧
    (WebDriver.DeleteSession ⟨"S"⟩ (fun _ _ => .ok [])).1.sessionID ≠ "" := by
  refine ⟨rfl, rfl, by decide⟩

/-- Claim C3 (amended): while the stored session id is empty, `Execute`
refuses to dispatch any command; `NewSession` refuses to run when a
session id is already set; `DeleteSession` is safe to call when no session
exists (returns nil without consulting the connection) — but on success it
does not clear the local session state: the stored id is left unchanged on
every path, and it is `Quit` that clears it after a successful delete. -/
theorem claim_C3_session_state_machine :
    (∀ (d : WebDriver) (c : ConnOracle) (cmd : String) (params : List (String × GoVal)),
        d.sessionID = "" → d.Execute c cmd params = .error .noActiveSession) ∧
    (∀ (d : WebDriver) (res : Except String String),
        d.sessionID ≠ "" → d.NewSession res = (d, .error .sessionExists)) ∧
    (∀ (d : WebDriver) (c : ConnOracle),
        d.sessionID = "" → d.DeleteSession c = (d, .ok ())) ∧
    (∀ (d : WebDriver) (c : ConnOracle), (d.DeleteSession c).1 = d) ∧
    (∀ (d : WebDriver) (c : ConnOracle),
        d.sessionID ≠ "" → (d.DeleteSession c).2 = .ok () →
        (d.Quit c).1 = ⟨""⟩) := by
  refine ⟨?_, ?_, ?_, ?_, ?_⟩
  · intro d c cmd params h
    simp [WebDriver.Execute, h]
  · intro d res h
    simp [WebDriver.NewSession, h]
  · intro d c h
    simp [WebDriver.DeleteSession, h]
  · intro d c
    unfold WebDriver.DeleteSession
    split <;> rfl
  · intro d c h hok
    unfold WebDriver.Quit
    rw [if_neg h, hok]

/-- Witness for C3: the state machine exercised at concrete states. -/
theorem claim_C3_witness :
    WebDriver.Execute ⟨""⟩ (fun _ _ => .ok []) "getTitle" [] = .error .noActiveSession ∧
    WebDriver.NewSession ⟨"S"⟩ (.ok "T") = (⟨"S"⟩, .error .sessionExists) ∧
    WebDriver.DeleteSession ⟨""⟩ (fun _ _ => .error "network down") = (⟨""⟩, .ok ()) ∧
    (WebDriver.Quit ⟨"S"⟩ (fun _ _ => .ok [])).1 = ⟨""⟩ := by
  refine ⟨?_, ?_, ?_, ?_⟩
  · exact claim_C3_session_state_machine.1 ⟨""⟩ _ "getTitle" [] rfl
  · exact claim_C3_session_state_machine.2.1 ⟨"S"⟩ _ (by decide)
  · exact claim_C3_session_state_machine.2.2.1 ⟨""⟩ _ rfl
  · exact claim_C3_session_state_machine.2.2.2.2 ⟨"S"⟩ _ (by decide) rfl

/-- Closing marks every inflight channel closed without disturbing other
channels' ids. -/
theorem chanOf_close {chans : List (Int × ChanState)} {infl : List Int} {id : Int}
    {c : ChanState}
    (hin : id ∈ infl)
    (hc : lookupChan chans id = some c) :
    lookupChan (chans.map fun p => if p.1 ∈ infl then (p.1, ChanState.closedCh) else p) id
      = some ChanState.closedCh := by
  induction chans with
  | nil => simp [lookupChan] at hc
  | cons p rest ih =>
      obtain ⟨k, st⟩ := p
      by_cases hk : k = id
      · subst hk
        simp only [List.map_cons]
        rw [if_pos hin]
        simp [lookupChan]
      · simp only [lookupChan, hk, ite_false] at hc
        simp only [List.map_cons]
        by_cases hmem : k ∈ infl
        · rw [if_pos hmem]
          simp only [lookupChan, hk, ite_false]
          exact ih hc
        · rw [if_neg hmem]
          simp only [lookupChan, hk, ite_false]
          exact ih hc

/-- Counterexample to claim C5's release-error clause: a blocked `Execute`
waiter whose reply channel is closed by `Close` is released with a nil
payload and a nil error — receiving from a closed Go channel yields the
zero value, and the source returns `(result, nil)` — not with a
`SessionClosed` error. -/
theorem claim_C5_counterexample :
    chanOf (Session.Close ⟨⟨false, 1, [1], [(1, ChanState.waiting)], false⟩,
        ["log.entryAdded"], false⟩).cdp 1 = some ChanState.closedCh ∧
    CDPSession.ExecuteAwait ChanState.closedCh false = .finished (.ok none) ∧
    CDPSession.ExecuteAwait ChanState.closedCh false
      ≠ .finished (.error BidiError.sessionClosed) := by
  refine ⟨rfl, rfl, ?_⟩
  intro h
  rw [show CDPSession.ExecuteAwait ChanState.closedCh false = .finished (.ok none) from rfl]
    at h
  simp at h

/-- Claim C5 (amended): closing a BiDi session sets the closed flag,
closes every pending reply channel — releasing each blocked `Execute`
waiter, which then returns a nil payload with a nil error rather than a
`SessionClosed` error — clears the handler table and the inflight map, and
closes the underlying WebSocket; a subsequent `Execute` on the closed
session fails fast with `SessionClosed`. -/
theorem claim_C5_close_semantics :
    ∀ (bs : BidiSession), bs.closed = false → bs.cdp.closed = false →
      (Session.Close bs).closed = true ∧
      (Session.Close bs).cdp.closed = true ∧
      (Session.Close bs).cdp.wsClosed = true ∧
      (Session.Close bs).cdp.inflight = [] ∧
      (Session.Close bs).handlers = [] ∧
      (∀ (id : Int) (c : ChanState), id ∈ bs.cdp.inflight →
          chanOf bs.cdp id = some c →
          chanOf (Session.Close bs).cdp id = some ChanState.closedCh) ∧
      (∀ done, CDPSession.ExecuteAwait ChanState.closedCh done = .finished (.ok none)) ∧
      CDPSession.ExecuteBegin (Session.Close bs).cdp = .error BidiError.sessionClosed := by
  intro bs h1 h2
  have hclose : Session.Close bs =
      { cdp := CDPSession.Close bs.cdp, handlers := [], closed := true } := by
    unfold Session.Close
    rw [if_neg (by simp [h1])]
  have hcdp : CDPSession.Close bs.cdp =
      { bs.cdp with closed := true
                    chans := bs.cdp.chans.map fun p =>
                      if p.1 ∈ bs.cdp.inflight then (p.1, ChanState.closedCh) else p
                    inflight := []
                    wsClosed := true } := by
    unfold CDPSession.Close
    rw [if_neg (by simp [h2])]
  refine ⟨by simp [hclose], by simp [hclose, hcdp], by simp [hclose, hcdp],
          by simp [hclose, hcdp], by simp [hclose], ?_, fun _ => rfl, ?_⟩
  · intro id c hin hc
    rw [hclose]
    simp only
    rw [hcdp]
    unfold chanOf at hc ⊢
    simp only
    exact chanOf_close hin hc
  · rw [hclose]
    simp only
    unfold CDPSession.ExecuteBegin
    rw [hcdp]
    simp

/-- Witness for C5: a session with one pending waiter, closed. -/
theorem claim_C5_witness :
    (Session.Close ⟨⟨false, 1, [1], [(1, ChanState.waiting)], false⟩,
        ["log.entryAdded"], false⟩).handlers = [] ∧
    CDPSession.ExecuteBegin (Session.Close ⟨⟨false, 1, [1], [(1, ChanState.waiting)], false⟩,
        ["log.entryAdded"], false⟩).cdp = .error BidiError.sessionClosed := by
  have h := claim_C5_close_semantics
    ⟨⟨false, 1, [1], [(1, ChanState.waiting)], false⟩, ["log.entryAdded"], false⟩ rfl rfl
  exact ⟨h.2.2.2.2.1, h.2.2.2.2.2.2.2⟩

/-- Counterexample to claim C1: a parseable reply under HTTP 500 whose
`value` is a plain object carries no error fields, and `executeCommand`
returns it as a success — the status being outside 2xx does not by itself
produce an error, contradicting the claim's "exactly when ... OR the HTTP
status is outside 2xx". -/
theorem claim_C1_counterexample :
    execIsError (executeCommand 500 true
      (some ⟨none, some (GoVal.obj []), "", "", ""⟩)) = false ∧
    status2xx 500 = false ∧
    valueHasErrorAndMessage (some (GoVal.obj [])) = false :=
  ⟨rfl, rfl, rfl⟩

/-- Claim C1 (amended): on a parseable JSON reply the executor returns an
error exactly when the top-level reply carries a nonempty `error` string
or the reply's `value` decodes as a W3C error object with a nonempty
`error` string — a `message` field is not required, and a non-2xx HTTP
status alone does not make a parseable reply an error; in the error case
the W3C kind string, message, stacktrace and the original HTTP status are
preserved (e.g. a body `{"value":{"error":"no such element",
"message":"m","stacktrace":"s"}}` under HTTP 404 surfaces as kind
`"no such element"` with message `"m"`, stacktrace `"s"`, HTTP code 404). -/
theorem claim_C1_error_mapping :
    (∀ (status : Nat) (reply : ServerReply),
        execIsError (executeCommand status true (some reply)) = replyIsError reply) ∧
    (∀ (status : Nat) (reply : ServerReply) (v : GoVal) (e msg st : String),
        reply.err = "" → reply.value = some v →
        decodeValueError v = some (e, msg, st) → e ≠ "" →
        executeCommand status true (some reply) = .error (.wd ⟨e, msg, st, status⟩)) := by
  constructor
  · intro status reply
    by_cases h : reply.err = ""
    · cases hv : reply.value with
      | none => simp [executeCommand, execIsError, replyIsError, h, hv]
      | some v =>
          cases hd : decodeValueError v with
          | none => simp [executeCommand, execIsError, replyIsError, h, hv, hd]
          | some t =>
              obtain ⟨e, m, s⟩ := t
              by_cases he : e = "" <;>
                simp [executeCommand, execIsError, replyIsError, h, hv, hd, he]
    · simp [executeCommand, execIsError, replyIsError, h]
  · intro status reply v e msg st herr hval hdec hne
    simp [executeCommand, herr, hval, hdec, hne]

/-- Witness for C1: the `"no such element"` example under HTTP 404. -/
theorem claim_C1_witness :
    executeCommand 404 true
      (some ⟨none, some (GoVal.obj [("error", GoVal.str "no such element"),
                                    ("message", GoVal.str "m"),
                                    ("stacktrace", GoVal.str "s")]), "", "", ""⟩)
      = .error (.wd ⟨"no such element", "m", "s", 404⟩) :=
  claim_C1_error_mapping.2 404 _ _ _ _ _ rfl rfl rfl (by decide)

/-- `isPrefixOf` as an existential decomposition. -/
theorem isPrefixOf_iff_append (x : List Char) :
    ∀ l, x.isPrefixOf l = true ↔ ∃ t, l = x ++ t := by
  induction x with
  | nil => intro l; simp [List.isPrefixOf]
  | cons c cs ih =>
      intro l
      cases l with
      | nil => simp [List.isPrefixOf]
      | cons d ds =>
          simp only [List.isPrefixOf, Bool.and_eq_true, beq_iff_eq, ih ds]
          constructor
          · rintro ⟨h1, t, h2⟩
            exact ⟨t, by simp [h1, h2]⟩
          · rintro ⟨t, h⟩
            simp only [List.cons_append, List.cons.injEq] at h
            exact ⟨h.1.symm, t, h.2⟩

/-- Splitting an append at a `'$'` that cannot lie in the left part. -/
theorem append_dollar_split :
    ∀ (x y a b : List Char), '$' ∉ x → x ++ y = a ++ '$' :: b →
      ∃ a2, a = x ++ a2 ∧ y = a2 ++ '$' :: b := by
  intro x
  induction x with
  | nil =>
      intro y a b _ h
      exact ⟨a, rfl, by simpa using h⟩
  | cons c cs ih =>
      intro y a b hx h
      cases a with
      | nil =>
          simp only [List.cons_append, List.nil_append, List.cons.injEq] at h
          exact absurd h.1 (by intro he; exact hx (by simp [he]))
      | cons a0 a' =>
          simp only [List.cons_append, List.cons.injEq] at h
          obtain ⟨a2, ha, hy⟩ := ih y a' b (fun hm => hx (List.mem_cons_of_mem _ hm)) h.2
          exact ⟨a2, by simp [h.1, ha], hy⟩

/-- A `'$'`-free prefix of the scanned string survives `replaceFuel` with
a `'$'`-headed pattern: no match can start inside it. -/
theorem replaceFuel_clean_head (k v : List Char) :
    ∀ (pre : List Char), '$' ∉ pre → ∀ (fuel : Nat) (s : List Char),
      pre.isPrefixOf s = true → pre.isPrefixOf (replaceFuel '$' k v fuel s) = true := by
  intro pre
  induction pre with
  | nil => intro _ fuel s _; simp [List.isPrefixOf]
  | cons q pre' ih =>
      intro hpre fuel s hps
      cases s with
      | nil => simp [List.isPrefixOf] at hps
      | cons c cs =>
          simp only [List.isPrefixOf, Bool.and_eq_true, beq_iff_eq] at hps
          obtain ⟨hqc, hps'⟩ := hps
          have hcd : c ≠ '$' := by
            intro he
            exact hpre (by rw [hqc, he]; exact List.mem_cons_self _ _)
          have hpre' : '$' ∉ pre' := fun hm => hpre (List.mem_cons_of_mem _ hm)
          cases fuel with
          | zero =>
              simp only [replaceFuel]
              simp [List.isPrefixOf, hqc, hps']
          | succ f =>
              have hnm : ((('$' : Char) :: k).isPrefixOf (c :: cs)) = false := by
                have : (('$' : Char) == c) = false := beq_eq_false_iff_ne.mpr (Ne.symm hcd)
                simp [List.isPrefixOf, this]
              simp only [replaceFuel, hnm, Bool.false_eq_true, if_false, ite_false]
              simp only [List.isPrefixOf, Bool.and_eq_true, beq_iff_eq]
              exact ⟨hqc, ih hpre' f cs hps'⟩

/-- The elimination step for one `ReplaceAll` pass: if every `'$'` of `s`
is followed either by the processed key `k` or by some `'$'`-free key of
`K`, then after replacing `"$" ++ k` by a `'$'`-free value every `'$'` of
the result is still followed by some key of `K`. -/
theorem replaceFuel_dollar_elim (k v : List Char) (hv : '$' ∉ v)
    (K : List (List Char)) :
    ∀ (fuel : Nat) (s : List Char), s.length ≤ fuel →
      (∀ a b, s = a ++ '$' :: b →
        k.isPrefixOf b = true ∨ ∃ k0, k0 ∈ K ∧ '$' ∉ k0 ∧ k0.isPrefixOf b = true) →
      ∀ a b, replaceFuel '$' k v fuel s = a ++ '$' :: b →
        ∃ k0, k0 ∈ K ∧ '$' ∉ k0 ∧ k0.isPrefixOf b = true := by
  intro fuel
  induction fuel with
  | zero =>
      intro s hlen H a b hout
      have hs : s = [] := List.length_eq_zero.mp (Nat.le_zero.mp hlen)
      subst hs
      simp [replaceFuel] at hout
  | succ f ih =>
      intro s hlen H a b hout
      cases s with
      | nil => simp [replaceFuel] at hout
      | cons c cs =>
          have hlen' : cs.length ≤ f := by
            simpa using Nat.succ_le_succ_iff.mp (by simpa using hlen)
          by_cases hm : (('$' : Char) :: k).isPrefixOf (c :: cs) = true
          · have hm' := hm
            simp only [List.isPrefixOf, Bool.and_eq_true, beq_iff_eq] at hm'
            obtain ⟨hc0, hkcs⟩ := hm'
            have hc : c = '$' := hc0.symm
            obtain ⟨t, hcst⟩ := (isPrefixOf_iff_append k cs).mp hkcs
            have hdrop : cs.drop k.length = t := by rw [hcst]; exact List.drop_left k t
            rw [show replaceFuel '$' k v (f + 1) (c :: cs)
                  = v ++ replaceFuel '$' k v f (cs.drop k.length) from by
                simp [replaceFuel, hm]] at hout
            obtain ⟨a2, _, hrec⟩ := append_dollar_split v _ a b hv hout
            refine ih (cs.drop k.length) ?_ ?_ a2 b hrec
            · calc (cs.drop k.length).length ≤ cs.length := by
                    rw [List.length_drop]; omega
                _ ≤ f := hlen'
            · intro a' b' hsplit
              refine H ('$' :: (k ++ a')) b' ?_
              calc c :: cs = '$' :: (k ++ (a' ++ '$' :: b')) := by
                    rw [hc, hcst, ← hdrop, hsplit]
                _ = ('$' :: (k ++ a')) ++ '$' :: b' := by simp
          · rw [show replaceFuel '$' k v (f + 1) (c :: cs)
                  = c :: replaceFuel '$' k v f cs from by simp [replaceFuel, hm]] at hout
            cases a with
            | nil =>
                simp only [List.nil_append, List.cons.injEq] at hout
                obtain ⟨hc, hb⟩ := hout
                rcases H [] cs (by simp [hc]) with hk | ⟨k0, hK, hd, hp⟩
                · exact absurd (by simp [List.isPrefixOf, hc, hk] :
                    (('$' : Char) :: k).isPrefixOf (c :: cs) = true) hm
                · exact ⟨k0, hK, hd, by rw [← hb]; exact replaceFuel_clean_head k v k0 hd f cs hp⟩
            | cons a0 a' =>
                simp only [List.cons_append, List.cons.injEq] at hout
                refine ih cs hlen' ?_ a' b hout.2
                intro a'' b'' hsplit
                exact H (c :: a'') b'' (by rw [hsplit]; simp)

/-- After the whole substitution loop, no `'$'` survives: every `'$'` of
the template is followed by a parameter key, every pass either consumes a
`'$'` whose key is the processed one or preserves the key-prefix after it,
and values never introduce a `'$'`. -/
theorem substPath_no_dollar :
    ∀ (params : List (String × GoVal)) (s : List Char),
      (∀ kv ∈ params, '$' ∉ (goSprint kv.2).toList) →
      (∀ a b, s = a ++ '$' :: b →
        ∃ k0, k0 ∈ keysOf params ∧ '$' ∉ k0 ∧ k0.isPrefixOf b = true) →
      '$' ∉ substPath s params := by
  intro params
  induction params with
  | nil =>
      intro s _ H hmem
      obtain ⟨a, b, hs⟩ := List.append_of_mem hmem
      obtain ⟨k0, hk0, _, _⟩ := H a b hs
      simp [keysOf] at hk0
  | cons kv rest ih =>
      obtain ⟨key, val⟩ := kv
      intro s hvals H
      have hstep : substPath s ((key, val) :: rest)
          = substPath (replaceFuel '$' key.toList (goSprint val).toList s.length s) rest := rfl
      rw [hstep]
      apply ih
      · intro kv hm
        exact hvals kv (List.mem_cons_of_mem _ hm)
      · intro a b hsplit
        refine replaceFuel_dollar_elim key.toList (goSprint val).toList
          (hvals (key, val) (by simp)) (keysOf rest) s.length s (Nat.le_refl _)
          ?_ a b hsplit
        intro a' b' hsp
        obtain ⟨k0, hk0K, hd, hp⟩ := H a' b' hsp
        rcases (by simpa [keysOf] using hk0K : k0 = key.toList ∨ k0 ∈ keysOf rest) with he | hin
        · left; rw [← he]; exact hp
        · right; exact ⟨k0, hin, hd, hp⟩

/-- The executable coverage scan implies `pathCovered`. -/
theorem coverageScan_sound :
    ∀ (t : List Char) (K : List (List Char)), coverageScan t K = true →
      ∀ a b, t = a ++ '$' :: b → tokenOf b ∈ K := by
  intro t
  induction t with
  | nil => intro K _ a b h; exact absurd h (by simp)
  | cons c cs ih =>
      intro K hscan a b h
      simp only [coverageScan, Bool.and_eq_true] at hscan
      obtain ⟨h1, h2⟩ := hscan
      cases a with
      | nil =>
          simp only [List.nil_append, List.cons.injEq] at h
          obtain ⟨hc, hb⟩ := h
          rw [if_pos hc] at h1
          obtain ⟨k, hkK, hbeq⟩ := List.any_eq_true.mp h1
          rw [← hb, ← beq_iff_eq.mp hbeq]
          exact hkK
      | cons a0 a' =>
          simp only [List.cons_append, List.cons.injEq] at h
          exact ih K h2 a' b h.2

/-- Token names are alphanumeric, hence `'$'`-free. -/
theorem tokenOf_no_dollar (b : List Char) : '$' ∉ tokenOf b := by
  intro hm
  have := List.mem_takeWhile_imp hm
  exact absurd this (by decide)

/-- The token is a prefix of the suffix it was read from. -/
theorem tokenOf_isPrefixOf (b : List Char) : (tokenOf b).isPrefixOf b = true :=
  (isPrefixOf_iff_append _ _).mpr
    ⟨b.dropWhile Char.isAlphanum, (List.takeWhile_append_dropWhile _ _).symm⟩

/-- String parameters render verbatim, as with Go's `fmt.Sprint`. -/
theorem goSprint_str (s : String) : goSprint (GoVal.str s) = s := by
  simp [goSprint]

/-- The Sprint model renders container contents recursively: a `'$'`
inside a nested map value surfaces in the rendered string (compare Go's
`fmt.Sprint(map[string]interface{}{"k": "$box"}) = "map[k:$box]"`), so the
`'$'`-freeness hypotheses below genuinely constrain container-valued
parameters. -/
theorem goSprint_renders_nested_dollar :
    goSprint (GoVal.obj [("k", GoVal.str "$box")]) = "map[k:$box]" ∧
    '$' ∈ (goSprint (GoVal.obj [("k", GoVal.str "$box")])).toList := by
  have h : goSprint (GoVal.obj [("k", GoVal.str "$box")]) = "map[k:$box]" := by
    simp only [goSprint, goSprintEntries, sortEntries, insertEntry, joinSpace, List.map]
    rfl
  exact ⟨h, by rw [h]; decide⟩

/-- Slices render space-separated in order and maps render with keys in
sorted order, as Go's `fmt` does. -/
theorem goSprint_renders_containers :
    goSprint (GoVal.arr [GoVal.str "x", GoVal.null]) = "[x <nil>]" ∧
    goSprint (GoVal.obj [("b", GoVal.str "2"), ("a", GoVal.arr [GoVal.str "x", GoVal.null])])
      = "map[a:[x <nil>] b:2]" := by
  constructor <;>
    · simp only [goSprint, goSprintVals, goSprintEntries, sortEntries, insertEntry,
        joinSpace, List.map]
      rfl

/-- Counterexample to claim C2's no-placeholder clause: with the template
`/session/$sessionId` and the parameter `sessionId = "$sessionId"` the
required token has a parameter, yet the dispatched URL still contains the
`$sessionId` placeholder — the replacement value re-introduces it. -/
theorem claim_C2_counterexample :
    pathCovered "/session/$sessionId".toList [("sessionId", GoVal.str "$sessionId")] ∧
    RemoteConnection.Execute
        [("deleteSession", ⟨"POST", "/session/$sessionId".toList⟩)]
        "http://localhost:4444".toList "deleteSession"
        [("sessionId", GoVal.str "$sessionId")]
      = .ok ⟨"POST", "http://localhost:4444/session/$sessionId".toList,
             some [("sessionId", GoVal.str "$sessionId")]⟩ ∧
    '$' ∈ "http://localhost:4444/session/$sessionId".toList := by
  refine ⟨?_, ?_, by decide⟩
  · intro a b h
    exact coverageScan_sound _ _ (by decide) a b h
  · show Except.ok (DispatchedRequest.mk "POST"
        ("http://localhost:4444".toList ++
          replaceAll ('$' :: "sessionId".toList)
            (goSprint (GoVal.str "$sessionId")).toList "/session/$sessionId".toList)
        (some [("sessionId", GoVal.str "$sessionId")]))
      = Except.ok ⟨"POST", "http://localhost:4444/session/$sessionId".toList,
          some [("sessionId", GoVal.str "$sessionId")]⟩
    rw [goSprint_str]
    rfl

/-- Claim C2 (amended): for every command present in the endpoint table
and every parameter map, the dispatcher replaces each occurrence of `$k`
in the path template with `fmt.Sprint` of parameter `k`; when all required
`$name` tokens have parameters AND no stringified parameter value contains
a `'$'`, the dispatched URL contains no `'$'` at all; and when the
resolved method is POST it serialises the entire parameter map as the JSON
body — keys consumed by path substitution are not stripped from it. -/
theorem claim_C2_dispatch :
    ∀ (table : List (String × Endpoint)) (serverAddr : List Char) (cmd : String)
      (ep : Endpoint) (params : List (String × GoVal)),
      getEndpoint table cmd = some ep →
      ep.method = "POST" →
      '$' ∉ serverAddr →
      (∀ kv ∈ params, '$' ∉ (goSprint kv.2).toList) →
      pathCovered ep.path params →
      RemoteConnection.Execute table serverAddr cmd params
        = .ok ⟨"POST", serverAddr ++ substPath ep.path params, some params⟩ ∧
      '$' ∉ serverAddr ++ substPath ep.path params := by
  intro table addr cmd ep params hep hmeth haddr hvals hcov
  constructor
  · unfold RemoteConnection.Execute
    rw [hep]
    simp [hmeth]
  · intro hm
    rcases List.mem_append.mp hm with h | h
    · exact haddr h
    · refine absurd h (substPath_no_dollar params ep.path hvals ?_)
      intro a b hsplit
      exact ⟨tokenOf b, hcov a b hsplit, tokenOf_no_dollar b, tokenOf_isPrefixOf b⟩

/-- Witness for C2: a concrete `findElement` dispatch with a clean
parameter map substitutes the session id and keeps it in the POST body. -/
theorem claim_C2_witness :
    RemoteConnection.Execute
        [("findElement", ⟨"POST", "/session/$sessionId/element".toList⟩)]
        "http://localhost:4444".toList "findElement"
        [("sessionId", GoVal.str "abc123"), ("using", GoVal.str "css selector")]
      = .ok ⟨"POST",
             "http://localhost:4444".toList ++
               substPath "/session/$sessionId/element".toList
                 [("sessionId", GoVal.str "abc123"), ("using", GoVal.str "css selector")],
             some [("sessionId", GoVal.str "abc123"), ("using", GoVal.str "css selector")]⟩ ∧
    '$' ∉ "http://localhost:4444".toList ++
        substPath "/session/$sessionId/element".toList
          [("sessionId", GoVal.str "abc123"), ("using", GoVal.str "css selector")] := by
  have h := claim_C2_dispatch
    [("findElement", ⟨"POST", "/session/$sessionId/element".toList⟩)]
    ("http://localhost:4444".toList) "findElement"
    ⟨"POST", "/session/$sessionId/element".toList⟩
    [("sessionId", GoVal.str "abc123"), ("using", GoVal.str "css selector")]
    rfl rfl (by decide)
    (by intro kv hm
        simp only [List.mem_cons, List.not_mem_nil, or_false] at hm
        rcases hm with rfl | rfl
        · show '$' ∉ (goSprint (GoVal.str "abc123")).toList
          rw [goSprint_str]
          decide
        · show '$' ∉ (goSprint (GoVal.str "css selector")).toList
          rw [goSprint_str]
          decide)
    (fun a b hh => coverageScan_sound _ _ (by decide) a b hh)
  exact h

end Selenium
